import Mathlib

set_option maxHeartbeats 1000000

/-!
Shallow embedding of the ByteNode desktop node-policy and configuration
handlers (src/main/index.ts, src/renderer/NodePolicyTab.tsx), together with
models, built from the specification, of the parts of the storage core
(bytecave-core) that the repository spawns as an external process.
-/

/-- Blocked-content policy record, as persisted in `blocked-content.json`:
`{ version, updatedAt, cids, peerIds }`. Timestamps are `Date.now()`
millisecond values, embedded as `Nat`. -/
structure BlockedContent where
  version : Nat
  updatedAt : Nat
  cids : List String
  peerIds : List String
deriving Repr, DecidableEq

/-- The inline fallback record the block handlers use when the policy file
cannot be read: the literal `'{"version":1,"updatedAt":0,"cids":[],"peerIds":[]}'`. -/
def fallbackBlocked : BlockedContent := ⟨1, 0, [], []⟩

/-- State of one durable JSON side-store file, with fault-injection flags:
`file = none` models ENOENT, `readErr` models a non-ENOENT read failure,
`writeErr` models a failing `writeFile`/`mkdir`. -/
structure FileStore (α : Type) where
  file : Option α
  readErr : Bool
  writeErr : Bool
deriving Repr, DecidableEq

/-- Outcome of a `fs.readFile` call on a `FileStore`. -/
inductive ReadOutcome (α : Type) where
  | ok (a : α)
  | enoent
  | ioErr
deriving Repr, DecidableEq

/-- Reading the store: a non-ENOENT error if `readErr` is set, ENOENT if the
file is absent, otherwise the parsed contents. -/
def FileStore.read (st : FileStore α) : ReadOutcome α :=
  if st.readErr then .ioErr else
    match st.file with
    | none => .enoent
    | some a => .ok a

/-- The blocked-content policy file store. -/
abbrev PolicyStore := FileStore BlockedContent

/-- Embedding of JavaScript `String.prototype.toLowerCase` for the ASCII
strings (CIDs, peer ids) the handlers receive: lower-case each character. -/
def jsToLowerCase (s : String) : String := ⟨s.data.map Char.toLower⟩

/-- The record the block handlers work on: `readFile(...).catch(() => default)`
followed by `JSON.parse` — the parsed file on success, the inline fallback on
any read error (ENOENT or otherwise). -/
def readOrFallback (st : PolicyStore) : BlockedContent :=
  match st.read with
  | .ok b => b
  | _ => fallbackBlocked

/-- The `policy:block-cid` ipc handler: read (with fallback), and if the
lower-cased CID is not yet in `cids`, append it, set `updatedAt` to now and
write the file back; returns the handler's `success` flag and the new store. -/
def blockCid (now : Nat) (cid : String) (st : PolicyStore) : Bool × PolicyStore :=
  let blocked := readOrFallback st
  if jsToLowerCase cid ∈ blocked.cids then
    (true, st)
  else
    let updated : BlockedContent :=
      { blocked with cids := blocked.cids ++ [jsToLowerCase cid], updatedAt := now }
    if st.writeErr then (false, st)
    else (true, { st with file := some updated })

/-- The `policy:unblock-cid` ipc handler: read (no fallback — a read failure
reaches the catch block and reports failure), and if the lower-cased CID is
present, splice it out, set `updatedAt` and write back. -/
def unblockCid (now : Nat) (cid : String) (st : PolicyStore) : Bool × PolicyStore :=
  match st.read with
  | .ok b =>
    if jsToLowerCase cid ∈ b.cids then
      let updated : BlockedContent :=
        { b with cids := b.cids.erase (jsToLowerCase cid), updatedAt := now }
      if st.writeErr then (false, st)
      else (true, { st with file := some updated })
    else (true, st)
  | _ => (false, st)

/-- The `policy:block-peer` ipc handler: like `blockCid` but on `peerIds`,
with no case normalization. -/
def blockPeer (now : Nat) (peerId : String) (st : PolicyStore) : Bool × PolicyStore :=
  let blocked := readOrFallback st
  if peerId ∈ blocked.peerIds then
    (true, st)
  else
    let updated : BlockedContent :=
      { blocked with peerIds := blocked.peerIds ++ [peerId], updatedAt := now }
    if st.writeErr then (false, st)
    else (true, { st with file := some updated })

/-- The `policy:unblock-peer` ipc handler: like `unblockCid` but on `peerIds`,
with no case normalization. -/
def unblockPeer (now : Nat) (peerId : String) (st : PolicyStore) : Bool × PolicyStore :=
  match st.read with
  | .ok b =>
    if peerId ∈ b.peerIds then
      let updated : BlockedContent :=
        { b with peerIds := b.peerIds.erase peerId, updatedAt := now }
      if st.writeErr then (false, st)
      else (true, { st with file := some updated })
    else (true, st)
  | _ => (false, st)

/-- The `policy:get-blocked-content` ipc handler: parsed file on success, a
fresh default record on ENOENT, a propagated failure on any other read error. -/
def getBlockedContent (now : Nat) (st : PolicyStore) : Except Unit BlockedContent :=
  match st.read with
  | .ok b => .ok b
  | .enoent => .ok ⟨1, now, [], []⟩
  | .ioErr => .error ()

/-- One of the four blocked-content policy mutations. -/
inductive PolicyMutation where
  | blockCidM (cid : String)
  | unblockCidM (cid : String)
  | blockPeerM (peerId : String)
  | unblockPeerM (peerId : String)
deriving Repr, DecidableEq

/-- Dispatch a mutation to its handler. -/
def applyMutation (now : Nat) (m : PolicyMutation) (st : PolicyStore) :
    Bool × PolicyStore :=
  match m with
  | .blockCidM c => blockCid now c st
  | .unblockCidM c => unblockCid now c st
  | .blockPeerM p => blockPeer now p st
  | .unblockPeerM p => unblockPeer now p st

/-- The policy record as observed in the durable store (the fallback record
stands in for an absent file, matching what a subsequent block would read). -/
def obsRecord (st : PolicyStore) : BlockedContent := st.file.getD fallbackBlocked

/-- Run a timed sequence of mutations. -/
def applyMutations (st : PolicyStore) : List (Nat × PolicyMutation) → PolicyStore
  | [] => st
  | (t, m) :: rest => applyMutations (applyMutation t m st).2 rest

/-- The list of successive store states a timed mutation sequence reaches. -/
def policyTrace (st : PolicyStore) : List (Nat × PolicyMutation) → List PolicyStore
  | [] => [st]
  | (t, m) :: rest => st :: policyTrace (applyMutation t m st).2 rest

/-- The mutation timestamps are a real clock: non-decreasing, starting no
earlier than the given time. -/
def clockOk : Nat → List (Nat × PolicyMutation) → Prop
  | _, [] => True
  | t0, (t, _) :: rest => t0 ≤ t ∧ clockOk t rest

/-- Lower-casing a character twice is the same as lower-casing it once. -/
theorem char_toLower_idem (c : Char) : c.toLower.toLower = c.toLower := by
  unfold Char.toLower
  by_cases h : c.toNat ≥ 65 ∧ c.toNat ≤ 90
  · rw [if_pos h]
    have hval : Nat.isValidChar (c.toNat + 32) := Or.inl (by omega)
    have hn : (Char.ofNat (c.toNat + 32)).toNat = c.toNat + 32 := by
      rw [Char.ofNat, dif_pos hval]
      simp [Char.ofNatAux, Char.toNat, UInt32.toNat]
    rw [if_neg (by omega)]
  · rw [if_neg h, if_neg h]

/-- Lower-casing a string twice is the same as lower-casing it once. -/
theorem jsToLowerCase_idem (s : String) :
    jsToLowerCase (jsToLowerCase s) = jsToLowerCase s := by
  unfold jsToLowerCase
  refine congrArg String.mk ?_
  rw [List.map_map]
  exact List.map_congr_left (fun c _ => char_toLower_idem c)

/-- Allowed-guilds field of the persisted guild policy: the sentinel string
`'all'` or an explicit list. -/
inductive AllowedGuilds where
  | all
  | list (gs : List String)
deriving Repr, DecidableEq

/-- Guild filter policy record, as persisted in `guilds.json`. -/
structure GuildConfig where
  allowedGuilds : AllowedGuilds
  blockedGuilds : List String
deriving Repr, DecidableEq

/-- The `policy:get-guilds` ipc handler: parsed file on success, the
`{ allowedGuilds: 'all', blockedGuilds: [] }` default on ENOENT, a propagated
failure on any other read error. -/
def getGuilds (st : FileStore GuildConfig) : Except Unit GuildConfig :=
  match st.read with
  | .ok g => .ok g
  | .enoent => .ok ⟨.all, []⟩
  | .ioErr => .error ()

/-- The `policy:set-guilds` ipc handler: write the record, reporting failure
(with the store unchanged) if the write fails. -/
def setGuilds (cfg : GuildConfig) (st : FileStore GuildConfig) :
    Bool × FileStore GuildConfig :=
  if st.writeErr then (false, st) else (true, { st with file := some cfg })

/-- The three guild filter modes offered by the policy tab UI. -/
inductive GuildMode where
  | all
  | allowlist
  | blocklist
deriving Repr, DecidableEq

/-- Embeds `handleGuildModeChange` in NodePolicyTab.tsx: the new guild policy record
built when the user switches the filter mode. -/
def handleGuildModeChange (prev : GuildConfig) (mode : GuildMode) : GuildConfig :=
  match mode with
  | .all => ⟨.all, []⟩
  | .allowlist => ⟨.list [], []⟩
  | .blocklist => ⟨.all, prev.blockedGuilds⟩

/-- Embeds `loadGuildConfig` in NodePolicyTab.tsx: the mode derived from a persisted
guild policy record. -/
def deriveGuildMode (g : GuildConfig) : GuildMode :=
  match g.allowedGuilds with
  | .all => if g.blockedGuilds.length > 0 then .blocklist else .all
  | .list _ => .allowlist

/-- Modelled from the spec: evaluation of a persisted guild policy record
against a content guild tag, per the Guild Filter Policy invariant (§3) and
the Policy Filter mode semantics (§4.6) of the storage core, which lives in
bytecave-core and is not part of this repository's sources. -/
def guildAllowed (g : GuildConfig) (guildId : String) : Bool :=
  match g.allowedGuilds with
  | .all => decide (guildId ∉ g.blockedGuilds)
  | .list l => decide (guildId ∈ l)

/-- Modelled from the spec: the Policy Filter state of the storage core
(§4.6) — blocked CIDs, blocked peers, and the guild mode with its allow and
block sets. The core itself lives in bytecave-core, outside this repository. -/
structure PolicyState where
  blockedCids : List String
  blockedPeers : List String
  guildMode : GuildMode
  allowSet : List String
  blockSet : List String
deriving Repr, DecidableEq

/-- Modelled from the spec: `isAllowed(CID, peerId, guildId)` of the core's
Policy Filter (§4.6): short-circuit false on a blocked CID or peer, otherwise
evaluate the guild mode. -/
def isAllowed (ps : PolicyState) (cid peerId guildId : String) : Bool :=
  if cid ∈ ps.blockedCids ∨ peerId ∈ ps.blockedPeers then false
  else
    match ps.guildMode with
    | .all => true
    | .allowlist => decide (guildId ∈ ps.allowSet)
    | .blocklist => decide (guildId ∉ ps.blockSet)

/-- Garbage-collector configuration surface relevant to pre-deletion
verification: the two persisted verification flags (config:set persists
`gcVerifyReplicas`/`gcVerifyProofs`) and the durability floor (the number of
other replicas that must be confirmed live). -/
structure GcConfig where
  gcVerifyReplicas : Bool
  gcVerifyProofs : Bool
  durabilityFloor : Nat
deriving Repr, DecidableEq

/-- A garbage-collection eviction candidate: its CID and pin flag. -/
structure GcBlob where
  cid : String
  pinned : Bool
deriving Repr, DecidableEq

/-- Modelled from the spec: the pre-deletion safety check of the core's
Garbage Collector (§4.5 step 3, bytecave-core, not in this repository):
a candidate may be deleted only when live verification (`liveVerify`, giving
the confirmed count of other replicas, `none` when unverifiable) confirms at
least the durability floor; the check does not consult the verification
flags, which the configuration surface marks as non-disableable. -/
def gcSafeToDelete (cfg : GcConfig) (liveVerify : String → Option Nat)
    (cid : String) : Bool :=
  match liveVerify cid with
  | some n => decide (cfg.durabilityFloor ≤ n)
  | none => false

/-- Modelled from the spec: one garbage-collection cycle over a candidate
list (§4.5): delete exactly the non-pinned candidates whose pre-deletion
verification confirms replica safety; all others are skipped this cycle. -/
def gcCycle (cfg : GcConfig) (liveVerify : String → Option Nat)
    (candidates : List GcBlob) : List String :=
  (candidates.filter (fun b => !b.pinned && gcSafeToDelete cfg liveVerify b.cid)).map
    GcBlob.cid

/-- Modelled from the spec: the startup configuration the core validates
(§6): the configured shard count, the shard count recorded by the persisted
shard assignment (if any), and the replication factor. -/
structure CoreStartConfig where
  shardCount : Nat
  persistedShardCount : Option Nat
  replicationFactor : Nat
deriving Repr, DecidableEq

/-- Modelled from the spec: startup validation of the core (§6/§7,
bytecave-core, not in this repository): fail fast with a descriptive error
when the replication factor is below 1 or the configured shard count is
inconsistent with the persisted shard assignment. -/
def validateStartup (cfg : CoreStartConfig) : Except String Unit :=
  if cfg.replicationFactor < 1 then
    .error "replication factor must be at least 1"
  else
    match cfg.persistedShardCount with
    | some pc =>
      if pc ≠ cfg.shardCount then
        .error "shard count is inconsistent with the persisted shard assignment"
      else .ok ()
    | none => .ok ()

/-- Modelled from the spec: node start gated on startup validation — the node
refuses to start (propagates the error) rather than run with an inconsistent
configuration. -/
def startNodeChecked (cfg : CoreStartConfig) : Except String CoreStartConfig :=
  match validateStartup cfg with
  | .ok _ => .ok cfg
  | .error e => .error e

/-- The persisted `config.json` record, with the fields the `config:set`
handler in src/main/index.ts recognizes; every field is optional (absent
fields are simply not present in the JSON object). Shard ranges are
(start, end) pairs. -/
structure PersistedConfig where
  nodeId : Option String
  port : Option Nat
  maxStorageMB : Option Nat
  p2pBootstrapPeers : Option (List String)
  p2pRelayPeers : Option (List String)
  shardCount : Option Nat
  nodeShards : Option (List (Nat × Nat))
  ownerAddress : Option String
  publicKey : Option String
  contentTypes : Option String
  lastUpdated : Option Nat
deriving Repr, DecidableEq

/-- A partial configuration update passed to `config:set`: `none` embeds a
field that is `undefined` (absent) in the update object. -/
structure ConfigUpdate where
  nodeId : Option String
  port : Option Nat
  maxStorageMB : Option Nat
  p2pBootstrapPeers : Option (List String)
  p2pRelayPeers : Option (List String)
  shardCount : Option Nat
  nodeShards : Option (List (Nat × Nat))
  ownerAddress : Option String
  publicKey : Option String
  contentTypes : Option String
deriving Repr, DecidableEq

/-- One `if (newConfig.f !== undefined) persistedConfig.f = newConfig.f` line
of the `config:set` handler. -/
def mergeField (upd prev : Option α) : Option α :=
  match upd with
  | some v => some v
  | none => prev

/-- The `config:set` ipc handler's update of the persisted `config.json`
record: field-by-field overwrite of exactly the fields present in the update,
then `lastUpdated = Date.now()`. -/
def configSetPersist (now : Nat) (u : ConfigUpdate) (p : PersistedConfig) :
    PersistedConfig where
  nodeId := mergeField u.nodeId p.nodeId
  port := mergeField u.port p.port
  maxStorageMB := mergeField u.maxStorageMB p.maxStorageMB
  p2pBootstrapPeers := mergeField u.p2pBootstrapPeers p.p2pBootstrapPeers
  p2pRelayPeers := mergeField u.p2pRelayPeers p.p2pRelayPeers
  shardCount := mergeField u.shardCount p.shardCount
  nodeShards := mergeField u.nodeShards p.nodeShards
  ownerAddress := mergeField u.ownerAddress p.ownerAddress
  publicKey := mergeField u.publicKey p.publicKey
  contentTypes := mergeField u.contentTypes p.contentTypes
  lastUpdated := some now

/-- The record a successful write of a changing mutation leaves in the file:
the record that was read, with the mutation's entry appended or spliced out
and `updatedAt` set to the mutation time. -/
def mutatedRecord (now : Nat) (m : PolicyMutation) (b : BlockedContent) :
    BlockedContent :=
  match m with
  | .blockCidM c => { b with cids := b.cids ++ [jsToLowerCase c], updatedAt := now }
  | .unblockCidM c => { b with cids := b.cids.erase (jsToLowerCase c), updatedAt := now }
  | .blockPeerM p => { b with peerIds := b.peerIds ++ [p], updatedAt := now }
  | .unblockPeerM p => { b with peerIds := b.peerIds.erase p, updatedAt := now }

/-- On a fault-free read the record the block handlers work on is exactly the
record observed in the store. -/
theorem readOrFallback_eq_obs (st : PolicyStore) (h : st.readErr = false) :
    readOrFallback st = obsRecord st := by
  cases hf : st.file <;>
    simp [readOrFallback, FileStore.read, obsRecord, h, hf, fallbackBlocked]

/-- A mutation never touches the record's version field. -/
theorem mutatedRecord_version (t : Nat) (m : PolicyMutation) (b : BlockedContent) :
    (mutatedRecord t m b).version = b.version := by
  cases m <;> rfl

/-- A written mutation stamps the record with the mutation time. -/
theorem mutatedRecord_updatedAt (t : Nat) (m : PolicyMutation) (b : BlockedContent) :
    (mutatedRecord t m b).updatedAt = t := by
  cases m <;> rfl

/-- Every mutation handler invocation has one of three outcomes: a successful
no-op (store untouched), a reported failure (store untouched), or a successful
write of the mutated record. -/
theorem applyMutation_trichotomy (t : Nat) (m : PolicyMutation) (st : PolicyStore) :
    applyMutation t m st = (true, st) ∨ applyMutation t m st = (false, st) ∨
      applyMutation t m st =
        (true, { st with file := some (mutatedRecord t m (readOrFallback st)) }) := by
  cases m with
  | blockCidM c =>
    by_cases hm : jsToLowerCase c ∈ (readOrFallback st).cids
    · left; simp [applyMutation, blockCid, hm]
    · by_cases hw : st.writeErr
      · right; left; simp [applyMutation, blockCid, hm, hw]
      · right; right; simp [applyMutation, blockCid, hm, hw, mutatedRecord]
  | unblockCidM c =>
    cases hr : st.read with
    | ok b =>
      have hrf : readOrFallback st = b := by simp [readOrFallback, hr]
      by_cases hm : jsToLowerCase c ∈ b.cids
      · by_cases hw : st.writeErr
        · right; left; simp [applyMutation, unblockCid, hr, hm, hw]
        · right; right; simp [applyMutation, unblockCid, hr, hm, hw, mutatedRecord, hrf]
      · left; simp [applyMutation, unblockCid, hr, hm]
    | enoent => right; left; simp [applyMutation, unblockCid, hr]
    | ioErr => right; left; simp [applyMutation, unblockCid, hr]
  | blockPeerM p =>
    by_cases hm : p ∈ (readOrFallback st).peerIds
    · left; simp [applyMutation, blockPeer, hm]
    · by_cases hw : st.writeErr
      · right; left; simp [applyMutation, blockPeer, hm, hw]
      · right; right; simp [applyMutation, blockPeer, hm, hw, mutatedRecord]
  | unblockPeerM p =>
    cases hr : st.read with
    | ok b =>
      have hrf : readOrFallback st = b := by simp [readOrFallback, hr]
      by_cases hm : p ∈ b.peerIds
      · by_cases hw : st.writeErr
        · right; left; simp [applyMutation, unblockPeer, hr, hm, hw]
        · right; right; simp [applyMutation, unblockPeer, hr, hm, hw, mutatedRecord, hrf]
      · left; simp [applyMutation, unblockPeer, hr, hm]
    | enoent => right; left; simp [applyMutation, unblockPeer, hr]
    | ioErr => right; left; simp [applyMutation, unblockPeer, hr]

/-- Claim C1 counterexample: blocking an already-blocked CID is a successful
no-op that does not advance `updatedAt` — at time 10, blocking the already
blocked CID `abc` leaves the store byte-for-byte unchanged, its `updatedAt`
still 5, contradicting the claim that every invocation bumps `updatedAt`. -/
theorem c1_noop_does_not_bump_updatedAt :
    blockCid 10 "abc" ⟨some ⟨1, 5, ["abc"], []⟩, false, false⟩ =
      (true, ⟨some ⟨1, 5, ["abc"], []⟩, false, false⟩) ∧
    (obsRecord (blockCid 10 "abc" ⟨some ⟨1, 5, ["abc"], []⟩, false, false⟩).2).updatedAt
      = 5 := by
  constructor <;> decide

/-- Claim C1 (amended): each policy mutation is idempotent — blocking an
already-blocked CID or peer, or unblocking an absent one, succeeds and leaves
the store (including `updatedAt`) entirely unchanged — and `updatedAt` is set
to the mutation time exactly on the invocations that change the store; a
no-op invocation does not advance it. -/
theorem c1_policy_mutation_idempotent (now : Nat) (cid peerId : String)
    (st : PolicyStore) :
    (jsToLowerCase cid ∈ (readOrFallback st).cids →
      blockCid now cid st = (true, st)) ∧
    (peerId ∈ (readOrFallback st).peerIds →
      blockPeer now peerId st = (true, st)) ∧
    (∀ b, st.read = .ok b → jsToLowerCase cid ∉ b.cids →
      unblockCid now cid st = (true, st)) ∧
    (∀ b, st.read = .ok b → peerId ∉ b.peerIds →
      unblockPeer now peerId st = (true, st)) ∧
    (∀ m : PolicyMutation, (applyMutation now m st).2 = st ∨
      (obsRecord (applyMutation now m st).2).updatedAt = now) := by
  refine ⟨?_, ?_, ?_, ?_, ?_⟩
  · intro hm; simp [blockCid, hm]
  · intro hm; simp [blockPeer, hm]
  · intro b hr hm; simp [unblockCid, hr, hm]
  · intro b hr hm; simp [unblockPeer, hr, hm]
  · intro m
    rcases applyMutation_trichotomy now m st with h | h | h
    · left; rw [h]
    · left; rw [h]
    · right; rw [h]; simp [obsRecord, mutatedRecord_updatedAt]

/-- Witness for C1 (amended) at concrete inputs: blocking the already-blocked
CID `abc` at time 10 leaves the concrete store unchanged. -/
theorem c1_policy_mutation_idempotent_witness :
    blockCid 10 "abc" ⟨some ⟨1, 5, ["abc"], []⟩, false, false⟩ =
      (true, ⟨some ⟨1, 5, ["abc"], []⟩, false, false⟩) :=
  (c1_policy_mutation_idempotent 10 "abc" "p"
    ⟨some ⟨1, 5, ["abc"], []⟩, false, false⟩).1 (by decide)

/-- The clock predicate only constrains the first timestamp from below, so it
is antitone in its starting time. -/
theorem clockOk_mono {a b : Nat} (h : a ≤ b)
    (ms : List (Nat × PolicyMutation)) : clockOk b ms → clockOk a ms := by
  cases ms with
  | nil => intro _; trivial
  | cons hd tl =>
    rintro ⟨h1, h2⟩
    exact ⟨Nat.le_trans h h1, h2⟩

/-- A trace always starts at the initial store. -/
theorem policyTrace_head (st : PolicyStore) (ms : List (Nat × PolicyMutation)) :
    (policyTrace st ms).head? = some st := by
  cases ms with
  | nil => rfl
  | cons hd tl => obtain ⟨t, m⟩ := hd; rfl

/-- Claim C2: along any timed sequence of policy mutations run with a real
(non-decreasing) clock and fault-free reads, every state reached has a
version and an `updatedAt` at least those of the previous state. -/
theorem c2_version_updatedAt_monotone (st : PolicyStore)
    (ms : List (Nat × PolicyMutation)) (hre : st.readErr = false)
    (hclk : clockOk (obsRecord st).updatedAt ms) :
    List.Chain' (fun a b =>
      (obsRecord a).version ≤ (obsRecord b).version ∧
      (obsRecord a).updatedAt ≤ (obsRecord b).updatedAt) (policyTrace st ms) := by
  induction ms generalizing st with
  | nil => simp [policyTrace]
  | cons tm rest ih =>
    obtain ⟨t, m⟩ := tm
    obtain ⟨h1, h2⟩ := hclk
    have hobs : obsRecord (applyMutation t m st).2 = obsRecord st ∨
        obsRecord (applyMutation t m st).2 = mutatedRecord t m (obsRecord st) := by
      rcases applyMutation_trichotomy t m st with h | h | h
      · left; rw [h]
      · left; rw [h]
      · right; rw [h]; simp [obsRecord, readOrFallback_eq_obs st hre]
    have hre1 : (applyMutation t m st).2.readErr = false := by
      rcases applyMutation_trichotomy t m st with h | h | h <;> rw [h] <;> exact hre
    have hver : (obsRecord (applyMutation t m st).2).version = (obsRecord st).version := by
      rcases hobs with h | h
      · rw [h]
      · rw [h, mutatedRecord_version]
    have hge : (obsRecord st).updatedAt ≤ (obsRecord (applyMutation t m st).2).updatedAt := by
      rcases hobs with h | h
      · rw [h]
      · rw [h, mutatedRecord_updatedAt]; exact h1
    have hle : (obsRecord (applyMutation t m st).2).updatedAt ≤ t := by
      rcases hobs with h | h
      · rw [h]; exact h1
      · rw [h, mutatedRecord_updatedAt]
    rw [policyTrace, List.chain'_cons']
    refine ⟨?_, ih _ hre1 (clockOk_mono hle rest h2)⟩
    intro b hb
    rw [policyTrace_head] at hb
    cases hb
    exact ⟨Nat.le_of_eq hver.symm, hge⟩

/-- Witness for C2 at a concrete input: a block at time 7 followed by an
unblock at time 9, starting from a record stamped 5, yields a monotone trace. -/
theorem c2_version_updatedAt_monotone_witness :
    List.Chain' (fun a b =>
      (obsRecord a).version ≤ (obsRecord b).version ∧
      (obsRecord a).updatedAt ≤ (obsRecord b).updatedAt)
      (policyTrace ⟨some ⟨1, 5, [], []⟩, false, false⟩
        [(7, .blockCidM "A"), (9, .unblockCidM "a")]) :=
  c2_version_updatedAt_monotone ⟨some ⟨1, 5, [], []⟩, false, false⟩
    [(7, .blockCidM "A"), (9, .unblockCidM "a")] rfl
    ⟨by decide, by decide, trivial⟩

/-- Claim C3: `isAllowed` returns false whenever the CID or the peer is
blocked; otherwise it is true in `all` mode, true iff the guild is in the
allow set in `allowlist` mode, and true iff the guild is not in the block set
in `blocklist` mode. -/
theorem c3_isAllowed_spec (ps : PolicyState) (cid peerId guildId : String) :
    ((cid ∈ ps.blockedCids ∨ peerId ∈ ps.blockedPeers) →
      isAllowed ps cid peerId guildId = false) ∧
    (cid ∉ ps.blockedCids → peerId ∉ ps.blockedPeers →
      ((ps.guildMode = .all → isAllowed ps cid peerId guildId = true) ∧
       (ps.guildMode = .allowlist →
         (isAllowed ps cid peerId guildId = true ↔ guildId ∈ ps.allowSet)) ∧
       (ps.guildMode = .blocklist →
         (isAllowed ps cid peerId guildId = true ↔ guildId ∉ ps.blockSet)))) := by
  constructor
  · intro h; simp [isAllowed, h]
  · intro h1 h2
    have hn : ¬(cid ∈ ps.blockedCids ∨ peerId ∈ ps.blockedPeers) := by tauto
    refine ⟨?_, ?_, ?_⟩ <;> intro hm <;> simp [isAllowed, hn, hm]

/-- Witness for C3 at concrete inputs: a blocked CID is refused even in `all`
mode, and in `allowlist` mode acceptance coincides with allow-set membership. -/
theorem c3_isAllowed_spec_witness :
    isAllowed ⟨["c1"], [], .all, [], []⟩ "c1" "p" "g" = false ∧
    (isAllowed ⟨[], [], .allowlist, ["g1"], []⟩ "c" "p" "g1" = true ↔
      ("g1" : String) ∈ (["g1"] : List String)) :=
  ⟨(c3_isAllowed_spec ⟨["c1"], [], .all, [], []⟩ "c1" "p" "g").1 (Or.inl (by decide)),
   ((c3_isAllowed_spec ⟨[], [], .allowlist, ["g1"], []⟩ "c" "p" "g1").2
     (by decide) (by decide)).2.1 rfl⟩

/-- Claim C4: a garbage-collection cycle deletes a blob only when live
verification confirms at least the durability-floor number of other replicas,
and flipping the persisted `gcVerifyReplicas`/`gcVerifyProofs` configuration
flags changes nothing — no configuration state turns the pre-deletion
verification off. -/
theorem c4_gc_requires_live_verification (cfg : GcConfig)
    (liveVerify : String → Option Nat) (candidates : List GcBlob) (cid : String) :
    (cid ∈ gcCycle cfg liveVerify candidates →
      ∃ n, liveVerify cid = some n ∧ cfg.durabilityFloor ≤ n) ∧
    (∀ b1 b2 : Bool,
      gcCycle ⟨b1, b2, cfg.durabilityFloor⟩ liveVerify candidates =
        gcCycle cfg liveVerify candidates) := by
  constructor
  · intro hmem
    rw [gcCycle, List.mem_map] at hmem
    obtain ⟨b, hb, hcid⟩ := hmem
    rw [List.mem_filter] at hb
    obtain ⟨_, hcond⟩ := hb
    rw [Bool.and_eq_true] at hcond
    have hsafe := hcond.2
    rw [gcSafeToDelete] at hsafe
    cases hv : liveVerify b.cid with
    | none => rw [hv] at hsafe; cases hsafe
    | some n =>
      rw [hv] at hsafe
      refine ⟨n, ?_, of_decide_eq_true hsafe⟩
      rw [← hcid]
      exact hv
  · intro b1 b2
    rfl

/-- Witness for C4 at a concrete input: with durability floor 2 and a
verifier that confirms 2 replicas of `a` but cannot verify `b`, the cycle
deletes `a` and the verification facts hold for it. -/
theorem c4_gc_requires_live_verification_witness :
    ∃ n, (fun c => if c = "a" then some 2 else none) "a" = some n ∧
      (2 : Nat) ≤ n :=
  (c4_gc_requires_live_verification ⟨true, true, 2⟩
    (fun c => if c = "a" then some 2 else none)
    [⟨"a", false⟩, ⟨"b", false⟩] "a").1 (by decide)

/-- Claim C5: at startup, a configuration whose shard count is inconsistent
with the persisted shard assignment, or whose replication factor is below 1,
makes the node fail fast with a descriptive (non-empty) error instead of
starting. -/
theorem c5_startup_fails_fast (cfg : CoreStartConfig)
    (h : (∃ pc, cfg.persistedShardCount = some pc ∧ pc ≠ cfg.shardCount) ∨
      cfg.replicationFactor < 1) :
    ∃ msg, msg ≠ "" ∧ startNodeChecked cfg = .error msg := by
  by_cases hr : cfg.replicationFactor < 1
  · refine ⟨"replication factor must be at least 1", by decide, ?_⟩
    simp [startNodeChecked, validateStartup, hr]
  · rcases h with ⟨pc, hpc, hne⟩ | hr2
    · refine ⟨"shard count is inconsistent with the persisted shard assignment",
        by decide, ?_⟩
      simp [startNodeChecked, validateStartup, hr, hpc, hne]
    · exact absurd hr2 hr

/-- Witness for C5 at a concrete input: configured shard count 8 against a
persisted assignment for 16 shards refuses to start. -/
theorem c5_startup_fails_fast_witness :
    ∃ msg, msg ≠ "" ∧ startNodeChecked ⟨8, some 16, 3⟩ = .error msg :=
  c5_startup_fails_fast ⟨8, some 16, 3⟩ (Or.inl ⟨16, rfl, by decide⟩)

/-- Claim C6: switching the guild filter to allowlist mode persists an
explicit empty allow set together with an empty block set; after any mode
change an explicit allow set never coexists with a non-empty block set; and
when the allow set is explicit, guild evaluation is independent of the block
set (the allow set short-circuits it). -/
theorem c6_allowlist_mode_change (prev : GuildConfig) (mode : GuildMode)
    (guildId : String) (bg bg' : List String) :
    handleGuildModeChange prev .allowlist = ⟨.list [], []⟩ ∧
    (∀ l, (handleGuildModeChange prev mode).allowedGuilds = .list l →
      (handleGuildModeChange prev mode).blockedGuilds = []) ∧
    (∀ l, guildAllowed ⟨.list l, bg⟩ guildId = guildAllowed ⟨.list l, bg'⟩ guildId) := by
  refine ⟨rfl, ?_, ?_⟩
  · intro l hl
    cases mode <;> simp_all [handleGuildModeChange]
  · intro l
    rfl

/-- Witness for C6 at a concrete input: switching a blocklist configuration
to allowlist mode yields the explicit empty allow set and empty block set. -/
theorem c6_allowlist_mode_change_witness :
    handleGuildModeChange ⟨.all, ["g3"]⟩ .allowlist = ⟨.list [], []⟩ ∧
    (handleGuildModeChange ⟨.all, ["g3"]⟩ .allowlist).blockedGuilds = [] :=
  ⟨(c6_allowlist_mode_change ⟨.all, ["g3"]⟩ .allowlist "g" [] []).1,
   (c6_allowlist_mode_change ⟨.all, ["g3"]⟩ .allowlist "g" [] []).2.1 [] rfl⟩

/-- Claim C7: every mutation invocation that reports success either made no
durable change (a no-op) or left exactly the mutated record in the durable
policy store; every invocation that reports failure leaves the durable store
byte-for-byte unchanged. -/
theorem c7_mutation_durability (now : Nat) (m : PolicyMutation) (st : PolicyStore) :
    ((applyMutation now m st).1 = false → (applyMutation now m st).2 = st) ∧
    ((applyMutation now m st).1 = true →
      (applyMutation now m st).2 = st ∨
      (applyMutation now m st).2.file =
        some (mutatedRecord now m (readOrFallback st))) := by
  rcases applyMutation_trichotomy now m st with h | h | h <;> rw [h]
  · constructor
    · intro hc; simp at hc
    · intro _; exact Or.inl rfl
  · constructor
    · intro _; rfl
    · intro hc; simp at hc
  · constructor
    · intro hc; simp at hc
    · intro _; right; rfl

/-- Witness for C7 at a concrete input: blocking CID `A` in an empty store at
time 3 succeeds, and the durable file then holds exactly the mutated record. -/
theorem c7_mutation_durability_witness :
    (applyMutation 3 (.blockCidM "A") ⟨none, false, false⟩).2 = ⟨none, false, false⟩ ∨
    (applyMutation 3 (.blockCidM "A") ⟨none, false, false⟩).2.file =
      some (mutatedRecord 3 (.blockCidM "A") (readOrFallback ⟨none, false, false⟩)) :=
  (c7_mutation_durability 3 (.blockCidM "A") ⟨none, false, false⟩).2 (by decide)

/-- The record the block handlers read keeps the all-lower-case property of
the observed record (on a read fault the fallback's CID list is empty). -/
theorem readOrFallback_cids_lowercase (st : PolicyStore)
    (h : ∀ x ∈ (obsRecord st).cids, jsToLowerCase x = x) :
    ∀ x ∈ (readOrFallback st).cids, jsToLowerCase x = x := by
  cases hre : st.readErr with
  | false => rw [readOrFallback_eq_obs st hre]; exact h
  | true =>
    intro x hx
    rw [readOrFallback, FileStore.read, hre] at hx
    simp [fallbackBlocked] at hx

/-- One mutation step keeps every entry of the blocked-CID set lower-case. -/
theorem cids_lowercase_step (t : Nat) (m : PolicyMutation) (st : PolicyStore)
    (h : ∀ x ∈ (obsRecord st).cids, jsToLowerCase x = x) :
    ∀ x ∈ (obsRecord (applyMutation t m st).2).cids, jsToLowerCase x = x := by
  have hrf := readOrFallback_cids_lowercase st h
  rcases applyMutation_trichotomy t m st with hh | hh | hh <;> rw [hh]
  · exact h
  · exact h
  · show ∀ x ∈ (obsRecord _).cids, _
    simp only [obsRecord, Option.getD]
    cases m with
    | blockCidM c =>
      intro x hx
      simp only [mutatedRecord, List.mem_append, List.mem_singleton] at hx
      rcases hx with hx | hx
      · exact hrf x hx
      · rw [hx]; exact jsToLowerCase_idem c
    | unblockCidM c =>
      intro x hx
      simp only [mutatedRecord] at hx
      exact hrf x (List.mem_of_mem_erase hx)
    | blockPeerM p =>
      intro x hx
      simp only [mutatedRecord] at hx
      exact hrf x hx
    | unblockPeerM p =>
      intro x hx
      simp only [mutatedRecord] at hx
      exact hrf x hx

/-- Claim C8: the blocked-CID set stays all-lower-case under every sequence
of policy mutations; blocking a CID that differs from a blocked one only in
letter case is a successful no-op; peer ids are compared case-sensitively and
stored unmodified. -/
theorem c8_cid_normalization_peer_casesensitive (now : Nat) (c c' p : String)
    (st : PolicyStore) (ms : List (Nat × PolicyMutation)) :
    ((∀ x ∈ (obsRecord st).cids, jsToLowerCase x = x) →
      ∀ x ∈ (obsRecord (applyMutations st ms)).cids, jsToLowerCase x = x) ∧
    (c' ∈ (readOrFallback st).cids → jsToLowerCase c' = c' →
      jsToLowerCase c = jsToLowerCase c' → blockCid now c st = (true, st)) ∧
    (p ∈ (readOrFallback st).peerIds → blockPeer now p st = (true, st)) ∧
    (p ∉ (readOrFallback st).peerIds → st.writeErr = false →
      (blockPeer now p st).2.file = some
        { readOrFallback st with
            peerIds := (readOrFallback st).peerIds ++ [p], updatedAt := now }) := by
  refine ⟨?_, ?_, ?_, ?_⟩
  · intro h
    induction ms generalizing st with
    | nil => exact h
    | cons tm rest ih =>
      obtain ⟨t, m⟩ := tm
      rw [applyMutations]
      exact ih _ (cids_lowercase_step t m st h)
  · intro hmem hfix hcase
    have : jsToLowerCase c ∈ (readOrFallback st).cids := by
      rw [hcase, hfix]; exact hmem
    simp [blockCid, this]
  · intro hmem
    simp [blockPeer, hmem]
  · intro hmem hw
    simp [blockPeer, hmem, hw]

/-- Witness for C8 at concrete inputs: with `abc` blocked, blocking `ABC` is
a no-op; blocking peer `PeerA` when only `peera` is blocked appends `PeerA`
verbatim. -/
theorem c8_cid_normalization_peer_casesensitive_witness :
    blockCid 9 "ABC" ⟨some ⟨1, 5, ["abc"], []⟩, false, false⟩ =
      (true, ⟨some ⟨1, 5, ["abc"], []⟩, false, false⟩) ∧
    (blockPeer 9 "PeerA" ⟨some ⟨1, 5, [], ["peera"]⟩, false, false⟩).2.file = some
      { readOrFallback ⟨some ⟨1, 5, [], ["peera"]⟩, false, false⟩ with
          peerIds :=
            (readOrFallback ⟨some ⟨1, 5, [], ["peera"]⟩, false, false⟩).peerIds
              ++ ["PeerA"],
          updatedAt := 9 } :=
  ⟨(c8_cid_normalization_peer_casesensitive 9 "ABC" "abc" "p"
      ⟨some ⟨1, 5, ["abc"], []⟩, false, false⟩ []).2.1
      (by decide) (by decide) (by decide),
   (c8_cid_normalization_peer_casesensitive 9 "c" "c" "PeerA"
      ⟨some ⟨1, 5, [], ["peera"]⟩, false, false⟩ []).2.2.2
      (by decide) rfl⟩

/-- Claim C9: `config:set` changes exactly the fields present in the partial
update (each absent field keeps its prior persisted value, each present field
takes the update's value) and stamps `lastUpdated` with the update time. -/
theorem c9_config_set_frame (now : Nat) (u : ConfigUpdate) (p : PersistedConfig) :
    (u.nodeId = none → (configSetPersist now u p).nodeId = p.nodeId) ∧
    (∀ v, u.nodeId = some v → (configSetPersist now u p).nodeId = some v) ∧
    (u.port = none → (configSetPersist now u p).port = p.port) ∧
    (∀ v, u.port = some v → (configSetPersist now u p).port = some v) ∧
    (u.maxStorageMB = none →
      (configSetPersist now u p).maxStorageMB = p.maxStorageMB) ∧
    (∀ v, u.maxStorageMB = some v →
      (configSetPersist now u p).maxStorageMB = some v) ∧
    (u.p2pBootstrapPeers = none →
      (configSetPersist now u p).p2pBootstrapPeers = p.p2pBootstrapPeers) ∧
    (∀ v, u.p2pBootstrapPeers = some v →
      (configSetPersist now u p).p2pBootstrapPeers = some v) ∧
    (u.p2pRelayPeers = none →
      (configSetPersist now u p).p2pRelayPeers = p.p2pRelayPeers) ∧
    (∀ v, u.p2pRelayPeers = some v →
      (configSetPersist now u p).p2pRelayPeers = some v) ∧
    (u.shardCount = none → (configSetPersist now u p).shardCount = p.shardCount) ∧
    (∀ v, u.shardCount = some v → (configSetPersist now u p).shardCount = some v) ∧
    (u.nodeShards = none → (configSetPersist now u p).nodeShards = p.nodeShards) ∧
    (∀ v, u.nodeShards = some v → (configSetPersist now u p).nodeShards = some v) ∧
    (u.ownerAddress = none →
      (configSetPersist now u p).ownerAddress = p.ownerAddress) ∧
    (∀ v, u.ownerAddress = some v →
      (configSetPersist now u p).ownerAddress = some v) ∧
    (u.publicKey = none → (configSetPersist now u p).publicKey = p.publicKey) ∧
    (∀ v, u.publicKey = some v → (configSetPersist now u p).publicKey = some v) ∧
    (u.contentTypes = none →
      (configSetPersist now u p).contentTypes = p.contentTypes) ∧
    (∀ v, u.contentTypes = some v →
      (configSetPersist now u p).contentTypes = some v) ∧
    (configSetPersist now u p).lastUpdated = some now := by
  refine ⟨?_, ?_, ?_, ?_, ?_, ?_, ?_, ?_, ?_, ?_, ?_, ?_, ?_, ?_, ?_, ?_, ?_, ?_,
    ?_, ?_, ?_⟩ <;>
    first
      | (intro v h; simp [configSetPersist, mergeField, h])
      | (intro h; simp [configSetPersist, mergeField, h])
      | simp [configSetPersist]

/-- Witness for C9 at a concrete input: updating only `maxStorageMB` keeps
the persisted `port`, updates `maxStorageMB`, and stamps `lastUpdated`. -/
theorem c9_config_set_frame_witness :
    (configSetPersist 99
      ⟨none, none, some 2000, none, none, none, none, none, none, none⟩
      ⟨some "n", some 5001, some 1024, some [], some [], some 1024, some [],
        none, none, none, some 7⟩).port = some 5001 ∧
    (configSetPersist 99
      ⟨none, none, some 2000, none, none, none, none, none, none, none⟩
      ⟨some "n", some 5001, some 1024, some [], some [], some 1024, some [],
        none, none, none, some 7⟩).maxStorageMB = some 2000 ∧
    (configSetPersist 99
      ⟨none, none, some 2000, none, none, none, none, none, none, none⟩
      ⟨some "n", some 5001, some 1024, some [], some [], some 1024, some [],
        none, none, none, some 7⟩).lastUpdated = some 99 :=
  ⟨(c9_config_set_frame 99
      ⟨none, none, some 2000, none, none, none, none, none, none, none⟩
      ⟨some "n", some 5001, some 1024, some [], some [], some 1024, some [],
        none, none, none, some 7⟩).2.2.1 rfl,
   (c9_config_set_frame 99
      ⟨none, none, some 2000, none, none, none, none, none, none, none⟩
      ⟨some "n", some 5001, some 1024, some [], some [], some 1024, some [],
        none, none, none, some 7⟩).2.2.2.2.2.1 2000 rfl,
   (c9_config_set_frame 99
      ⟨none, none, some 2000, none, none, none, none, none, none, none⟩
      ⟨some "n", some 5001, some 1024, some [], some [], some 1024, some [],
        none, none, none, some 7⟩).2.2.2.2.2.2.2.2.2.2.2.2.2.2.2.2.2.2.2.2⟩

/-- Claim C10: when the policy files are absent the read handlers return the
well-formed defaults (version-1 empty blocked-content record; `all` guilds
with no blocked guilds), and any non-ENOENT read error is propagated as a
failure. -/
theorem c10_get_defaults (now : Nat) (stb : PolicyStore)
    (stg : FileStore GuildConfig) :
    (stb.readErr = false → stb.file = none →
      getBlockedContent now stb = .ok ⟨1, now, [], []⟩) ∧
    (stg.readErr = false → stg.file = none → getGuilds stg = .ok ⟨.all, []⟩) ∧
    (stb.readErr = true → getBlockedContent now stb = .error ()) ∧
    (stg.readErr = true → getGuilds stg = .error ()) := by
  refine ⟨?_, ?_, ?_, ?_⟩
  · intro h1 h2; simp [getBlockedContent, FileStore.read, h1, h2]
  · intro h1 h2; simp [getGuilds, FileStore.read, h1, h2]
  · intro h1; simp [getBlockedContent, FileStore.read, h1]
  · intro h1; simp [getGuilds, FileStore.read, h1]

/-- Witness for C10 at concrete inputs: both read handlers return their
defaults on an absent file. -/
theorem c10_get_defaults_witness :
    getBlockedContent 42 ⟨none, false, false⟩ = .ok ⟨1, 42, [], []⟩ ∧
    getGuilds ⟨none, false, false⟩ = .ok ⟨.all, []⟩ :=
  ⟨(c10_get_defaults 42 ⟨none, false, false⟩ ⟨none, false, false⟩).1 rfl rfl,
   (c10_get_defaults 42 ⟨none, false, false⟩ ⟨none, false, false⟩).2.1 rfl rfl⟩
